import Mathlib

/-!
Verification of the client-side interactivity core of the robosexual
research platform (src/assets/scripts/main.js).

The JavaScript source is shallowly embedded: numeric values (JS floats)
are modelled as exact rationals (`ℚ`), except where the code takes a
real square root, which is modelled in `ℝ`; DOM class lists are lists of
strings with `classList.add` / `classList.remove` semantics; the
requestAnimationFrame scheduler is modelled as an explicit state machine
handing out fresh positive callback identifiers; `Math.random()` is
modelled as an ambient stream of rationals in `[0, 1)`; code that can
throw a `TypeError` is modelled in `Except`.
-/

/-! ## Particle model (main.js 274-309)

`class Particle` inside `initializeParticles`.  The constructor consumes
six successive `Math.random()` draws, in source order
(x, y, vx, vy, size, opacity). -/

structure Particle where
  x : ℚ
  y : ℚ
  vx : ℚ
  vy : ℚ
  size : ℚ
  opacity : ℚ
deriving DecidableEq, Repr

/-- `new Particle()` (main.js 278-285) with the six `Math.random()` calls of
particle number `k` taken from the ambient random stream `rs` at indices
`6*k .. 6*k+5`, in the order the constructor body evaluates them. -/
def Particle.mk' (w h : ℚ) (rs : ℕ → ℚ) (k : ℕ) : Particle :=
  { x := rs (6 * k) * w
    y := rs (6 * k + 1) * h
    vx := (rs (6 * k + 2) - 1/2) * (1/2)
    vy := (rs (6 * k + 3) - 1/2) * (1/2)
    size := rs (6 * k + 4) * 2 + 1
    opacity := rs (6 * k + 5) * (1/2) + 1/5 }

/-- `Particle.update` (main.js 287-293): advance position by velocity, then
flip a velocity component whose new position coordinate lies strictly
outside `[0, w]` (resp. `[0, h]`). -/
def Particle.update (w h : ℚ) (p : Particle) : Particle :=
  let x' := p.x + p.vx
  let y' := p.y + p.vy
  let vx' := if x' < 0 ∨ x' > w then -p.vx else p.vx
  let vy' := if y' < 0 ∨ y' > h then -p.vy else p.vy
  { p with x := x', y := y', vx := vx', vy := vy' }

/-- `const particleCount = 50` (main.js 275). -/
def particleCount : ℕ := 50

/-- The particle-allocation loop of `initializeParticles`
(main.js 306-309): push `count` freshly constructed particles. -/
def initParticlesList (w h : ℚ) (count : ℕ) (rs : ℕ → ℚ) : List Particle :=
  (List.range count).map (Particle.mk' w h rs)

/-! ## Render pass (main.js 295-303, 312-326, 332-356)

One iteration of the `animate` loop body: update and draw every particle
as a filled circle, then `drawConnections`.  The canvas 2D calls are
reified as a list of draw calls (`clearRect` is a clear, not a draw, and
is not reified). -/

/-- A canvas draw call: a filled circle (`arc` + `fill`, main.js 295-303)
or a connective line segment (`moveTo`/`lineTo`/`stroke`, main.js 344-352).
The line's alpha comes from a real square root, so it lives in `ℝ`. -/
inductive DrawCall where
  | circle (x y r o : ℚ)
  | line (x1 y1 x2 y2 : ℚ) (o : ℝ)

def DrawCall.isCircle : DrawCall → Bool
  | .circle _ _ _ _ => true
  | .line _ _ _ _ _ => false

def DrawCall.isLine : DrawCall → Bool
  | .circle _ _ _ _ => false
  | .line _ _ _ _ _ => true

/-- `Math.sqrt(dx * dx + dy * dy)` (main.js 337-339). -/
noncomputable def particleDist (p q : Particle) : ℝ :=
  Real.sqrt (((p.x - q.x : ℚ) : ℝ) * ((p.x - q.x : ℚ) : ℝ)
    + ((p.y - q.y : ℚ) : ℝ) * ((p.y - q.y : ℚ) : ℝ))

/-- `const maxDistance = 100` (main.js 333). -/
def maxDistance : ℚ := 100

/-- The line segment the connection pass strokes between particles `p` and
`q`, with `globalAlpha = (maxDistance - distance) / maxDistance * 0.2`
(main.js 342-351). -/
noncomputable def lineBetween (p q : Particle) : DrawCall :=
  .line p.x p.y q.x q.y
    (((maxDistance : ℝ) - particleDist p q) / (maxDistance : ℝ) * (1/5))

open scoped Classical in
/-- The inner `j` loop of `drawConnections` (main.js 336-354): for a fixed
particle `p`, stroke a line to each later particle within `maxDistance`. -/
noncomputable def linesFrom (p : Particle) (qs : List Particle) : List DrawCall :=
  qs.filterMap (fun q =>
    if particleDist p q < (maxDistance : ℝ) then some (lineBetween p q) else none)

/-- `drawConnections` (main.js 332-356): the `i < j` double loop over
unordered particle pairs. -/
noncomputable def drawConnections : List Particle → List DrawCall
  | [] => []
  | p :: rest => linesFrom p rest ++ drawConnections rest

/-- `Particle.draw` (main.js 295-303): a filled circle at the particle's
position with radius `size` and alpha `opacity`. -/
def drawCircleCall (p : Particle) : DrawCall :=
  .circle p.x p.y p.size p.opacity

/-- One body of the `animate` loop (main.js 312-324): every particle is
updated then drawn, and then `drawConnections` runs over the updated
particles.  Returns the updated particles and the emitted draw calls. -/
noncomputable def animateFrame (w h : ℚ) (ps : List Particle) :
    List Particle × List DrawCall :=
  let ps' := ps.map (Particle.update w h)
  (ps', ps'.map drawCircleCall ++ drawConnections ps')

/-! ## DOM elements and the reveal transition (main.js 216-233)

A DOM element is modelled by its class list; `classList.add` appends a
class not already present, `classList.remove` drops every occurrence. -/

structure Elem where
  classes : List String
deriving DecidableEq, Repr

/-- `el.classList.add(c)`: a no-op when `c` is already present, else append. -/
def addClass (c : String) (e : Elem) : Elem :=
  if c ∈ e.classes then e else ⟨e.classes ++ [c]⟩

/-- `el.classList.remove(c)`: drop every occurrence of `c`. -/
def removeClass (c : String) (e : Elem) : Elem :=
  ⟨e.classes.filter (fun a => a ≠ c)⟩

/-- One `if (entry.target.classList.contains(k)) entry.target.classList.add(v)`
step of `handleAnimationIntersection` (main.js 222-230). -/
def addIfKind (k v : String) (x : Elem) : Elem :=
  if k ∈ x.classes then addClass v x else x

/-- The per-entry body of `handleAnimationIntersection` (main.js 219-230):
add the generic visible marker, then each kind-specific marker whose kind
class the element carries, in source order. -/
def reveal (e : Elem) : Elem :=
  addIfKind "prediction-card" "prediction-card--visible"
    (addIfKind "story-card" "story-card--visible"
      (addIfKind "timeline__item" "timeline__item--visible"
        (addClass "fade-in-up--visible" e)))

/-! ## The reveal watcher (main.js 117-131, 216-233)

The animation observer holds a set of observed element identifiers
(`animationObserver.observe`, main.js 126-128).  Its callback reveals every
intersecting entry's target and touches nothing else: in particular it
never calls `unobserve`. -/

/-- An intersection record delivered to a watcher callback: target element
identifier plus `isIntersecting`. -/
structure REntry where
  target : ℕ
  isIntersecting : Bool
deriving DecidableEq, Repr

/-- The reveal watcher's state: the element store and the set of observed
element identifiers. -/
structure RevealSys where
  store : ℕ → Elem
  observed : Finset ℕ

/-- `handleAnimationIntersection` (main.js 216-233): reveal each
intersecting entry's target; the observed set is untouched (the handler
never unsubscribes). -/
def handleAnimationIntersection (sys : RevealSys) (es : List REntry) : RevealSys :=
  es.foldl
    (fun s e =>
      if e.isIntersecting then
        { s with store := fun j => if j = e.target then reveal (s.store j) else s.store j }
      else s)
    sys

/-- A whole run of the reveal watcher: one callback invocation per batch. -/
def runRevealBatches (sys : RevealSys) (bs : List (List REntry)) : RevealSys :=
  bs.foldl handleAnimationIntersection sys

/-! ## Application state (main.js 16-22, 464-466) -/

/-- `this.state` of `RobosexualityApp` (main.js 16-22). -/
structure AppState where
  currentSection : String
  genderVersion : String
  animationPlaying : Bool
  scrollPosition : ℚ
  isMenuOpen : Bool
deriving DecidableEq, Repr

/-- The constructor's initial state (main.js 16-22). -/
def appInit : AppState :=
  { currentSection := "home"
    genderVersion := "male"
    animationPlaying := false
    scrollPosition := 0
    isMenuOpen := false }

/-- A `newState` argument of `setState`: an object carrying any subset of
the five state keys. -/
structure StateUpdate where
  currentSection : Option String := none
  genderVersion : Option String := none
  animationPlaying : Option Bool := none
  scrollPosition : Option ℚ := none
  isMenuOpen : Option Bool := none
deriving DecidableEq, Repr

/-- `setState` (main.js 464-466): `this.state = { ...this.state, ...newState }` —
every key present in `newState` overrides, every other key is kept. -/
def setState (st : AppState) (u : StateUpdate) : AppState :=
  { currentSection := u.currentSection.getD st.currentSection
    genderVersion := u.genderVersion.getD st.genderVersion
    animationPlaying := u.animationPlaying.getD st.animationPlaying
    scrollPosition := u.scrollPosition.getD st.scrollPosition
    isMenuOpen := u.isMenuOpen.getD st.isMenuOpen }

/-! ## The section watcher (main.js 205-214) -/

/-- An entry delivered to the section watcher: the section's `id` attribute
plus `isIntersecting`. -/
structure SectionEntry where
  id : String
  isIntersecting : Bool
deriving DecidableEq, Repr

/-- One entry of the `entries.forEach` in `handleSectionIntersection`
(main.js 206-213): an intersecting entry overwrites `state.currentSection`
with its id and appends an `updateActiveLink` notification. -/
def sectionStep (acc : AppState × List String) (e : SectionEntry) :
    AppState × List String :=
  if e.isIntersecting then
    ({ acc.1 with currentSection := e.id }, acc.2 ++ [e.id])
  else acc

/-- `handleSectionIntersection` (main.js 205-214): process a batch of
entries in reported order.  Returns the new state and the ids the
navigation collaborator was notified of, in order. -/
def handleSectionIntersection (es : List SectionEntry) (st : AppState) :
    AppState × List String :=
  es.foldl sectionStep (st, [])

/-! ## Statistics counter (main.js 366-403) -/

/-- `const duration = 2000` (main.js 371). -/
def statDuration : ℚ := 2000

/-- One body of the `animate` frame callback in `animateStatistics`
(main.js 374-389) at a given elapsed time: the value `stat.textContent`
holds when the body returns.  While `progress < 1` this is
`Math.floor(target * easeOutQuart)`; at `progress = 1` the body overwrites
it with `target` itself. -/
def statStep (target : ℤ) (elapsed : ℚ) : ℤ :=
  let progress := min (elapsed / statDuration) 1
  let easeOutQuart := 1 - (1 - progress)^4
  let current := ⌊(target : ℚ) * easeOutQuart⌋
  if progress < 1 then current else target

/-- An entry delivered to the per-stat one-shot observer (main.js 392-399). -/
structure SEntry where
  target : ℕ
  isIntersecting : Bool
deriving DecidableEq, Repr

/-- The one-shot stat observer's state: observed element identifiers plus
the log of animation starts (`requestAnimationFrame(animate)` calls), in
order. -/
structure StatSys where
  observed : Finset ℕ
  starts : List ℕ
deriving DecidableEq

/-- One entry of the observer callback in `animateStatistics`
(main.js 393-398): the code tests only `entry.isIntersecting` — every
intersecting record starts the animation and unobserves its target, even
a record for a target an earlier entry of the same delivered batch
already unobserved. -/
def statObserverStep (s : StatSys) (e : SEntry) : StatSys :=
  if e.isIntersecting then
    { observed := s.observed.erase e.target, starts := s.starts ++ [e.target] }
  else s

/-- One callback invocation (`entries.forEach`, main.js 393-398). -/
def statObserverBatch (s : StatSys) (es : List SEntry) : StatSys :=
  es.foldl statObserverStep s

/-- A whole run of the stat observer: one callback invocation per batch. -/
def statObserverRun (s : StatSys) (bs : List (List SEntry)) : StatSys :=
  bs.foldl statObserverBatch s

/-- The visibility primitive's delivery guarantee: every record of a
delivered batch was queued for a target observed when the batch arrives
(`unobserve` stops future queuing but cannot retract records already in
the delivered array, so a batch may still carry several records for one
target). -/
def statRunDelivered : StatSys → List (List SEntry) → Prop
  | _, [] => True
  | s, es :: bs =>
      (∀ e ∈ es, e.target ∈ s.observed)
      ∧ statRunDelivered (statObserverBatch s es) bs

/-! ## The particle animation loop and its scheduler
(main.js 257-330, 358-364, 405-415)

`requestAnimationFrame` hands out fresh positive identifiers and queues
the callback; `cancelAnimationFrame(id)` removes `id` from the queue if
still pending.  `initializeParticles` runs `animate()` once synchronously
— which schedules the next frame and keeps the returned id only in the
closure variable `animationId` — and then stores the current value of
that variable in `this.particleAnimationId`, once.  Every later frame
updates only the closure variable, so `this.particleAnimationId` goes
stale after the first scheduled frame fires. -/

/-- The canvas `.hero__particles` with its layout box. -/
structure Canvas where
  width : ℚ
  height : ℚ
deriving DecidableEq, Repr

/-- The particle subsystem: canvas size, live particles, the scheduler
(fresh-id counter and pending frame queue), the loop closure's
`animationId` variable, the app's `particleAnimationId` field (0 models
JS `undefined`/falsy; real ids are positive), and two instrumentation
counters (frames executed, `initializeParticles` bodies run). -/
structure PSys where
  width : ℚ
  height : ℚ
  particles : List Particle
  nextId : ℕ
  pending : List ℕ
  closureAnimId : ℕ
  particleAnimationId : ℕ
  framesRun : ℕ
  initCount : ℕ
deriving DecidableEq, Repr

/-- The state before any `initializeParticles` call. -/
def psInit : PSys :=
  { width := 0, height := 0, particles := [], nextId := 1, pending := []
    closureAnimId := 0, particleAnimationId := 0, framesRun := 0, initCount := 0 }

/-- `initializeParticles` (main.js 257-330): return unchanged when the
canvas is absent (guard at line 259); otherwise allocate `particleCount`
particles, run `animate()` once synchronously (one tick/render frame,
scheduling the next frame into the closure's `animationId`), then store
the closure's current id in `this.particleAnimationId`. -/
def initializeParticles (canvas : Option Canvas) (rs : ℕ → ℚ) (s : PSys) : PSys :=
  match canvas with
  | none => s
  | some cv =>
    { width := cv.width
      height := cv.height
      particles := initParticlesList cv.width cv.height particleCount rs
      nextId := s.nextId + 1
      pending := s.pending ++ [s.nextId]
      closureAnimId := s.nextId
      particleAnimationId := s.nextId
      framesRun := s.framesRun + 1
      initCount := s.initCount + 1 }

/-- The scheduler fires the oldest pending frame: the `animate` body runs
(tick + render, scheduling the next frame and updating the closure's
`animationId`), while `this.particleAnimationId` is left as it was. -/
def fireFrame (s : PSys) : PSys :=
  match s.pending with
  | [] => s
  | _ :: rest =>
    { s with
      particles := s.particles.map (Particle.update s.width s.height)
      nextId := s.nextId + 1
      pending := rest ++ [s.nextId]
      closureAnimId := s.nextId
      framesRun := s.framesRun + 1 }

/-- `pauseAnimations` (main.js 405-409): when `this.particleAnimationId`
is truthy, `cancelAnimationFrame` it — removing that id from the pending
queue if it is still there.  The field itself is not cleared. -/
def pauseAnimations (s : PSys) : PSys :=
  if s.particleAnimationId ≠ 0 then
    { s with pending := s.pending.erase s.particleAnimationId }
  else s

/-- `resumeAnimations` (main.js 411-415): re-initialize only when
`this.particleAnimationId` is falsy. -/
def resumeAnimations (canvas : Option Canvas) (rs : ℕ → ℚ) (s : PSys) : PSys :=
  if s.particleAnimationId = 0 then initializeParticles canvas rs s else s

/-! ## Scroll handling and form setup (main.js 161-175, 235-241, 796-811) -/

/-- `this.config.scrollThreshold = 100` (main.js 25). -/
def scrollThreshold : ℚ := 100

/-- `handleParallax` (main.js 235-241): guarded on the hero's presence;
sets `translateY(scrollY * 0.5)`. -/
def handleParallax (scrollY : ℚ) (hero : Option ℚ) : Option ℚ :=
  hero.map (fun _ => scrollY * (1/2))

/-- `handleScroll` (main.js 161-175): store the scroll offset in state,
then dereference the header — with no null guard, so a missing `.header`
throws a `TypeError` after the state was already mutated — toggle its
`header--scrolled` class, and run the parallax update. -/
def handleScroll (scrollY : ℚ) (header : Option Elem) (hero : Option ℚ)
    (st : AppState) : Except String (AppState × Elem × Option ℚ) :=
  let st1 := { st with scrollPosition := scrollY }
  match header with
  | none => .error "TypeError: null has no classList"
  | some hd =>
    let hd1 := if scrollY > scrollThreshold
      then addClass "header--scrolled" hd
      else removeClass "header--scrolled" hd
    .ok (st1, hd1, handleParallax scrollY hero)

/-- The form module's registry of validators, keyed by field name
(`setupValidators`, main.js 813-838). -/
structure FormState where
  validatorKeys : List String
deriving DecidableEq, Repr

/-- `FormModule.init` (main.js 805-811): return unchanged when the contact
form is absent (guard `if (!this.form) return`); otherwise install the
four validators. -/
def formInit (form : Option Unit) (m : FormState) : FormState :=
  match form with
  | none => m
  | some _ => { validatorKeys := ["name", "email", "subject", "message"] }

example : (initParticlesList 100 50 3 (fun _ => 1/2)).length = 3 := by decide

example : (Particle.update 100 100 ⟨99, 5, 2, 0, 1, 1/2⟩).vx = -2 := by
  norm_num [Particle.update]

/-! ## Class-list lemmas -/

lemma addClass_of_mem {c : String} {e : Elem} (h : c ∈ e.classes) :
    addClass c e = e := by
  simp [addClass, h]

lemma mem_addClass_self (c : String) (e : Elem) : c ∈ (addClass c e).classes := by
  by_cases h : c ∈ e.classes <;> simp [addClass, h]

lemma mem_addClass_of_mem {a : String} (c : String) {e : Elem}
    (h : a ∈ e.classes) : a ∈ (addClass c e).classes := by
  by_cases hc : c ∈ e.classes <;> simp [addClass, hc, h]

lemma mem_addClass (a c : String) (e : Elem) :
    a ∈ (addClass c e).classes ↔ a ∈ e.classes ∨ a = c := by
  by_cases hc : c ∈ e.classes <;> simp [addClass, hc]
  exact fun ha => ha ▸ hc

lemma addClass_nodup {c : String} {e : Elem} (h : e.classes.Nodup) :
    (addClass c e).classes.Nodup := by
  by_cases hc : c ∈ e.classes <;> simp [addClass, hc, h]
  exact h.append (List.nodup_singleton c)
    (fun a ha hb => by simp at hb; exact hc (hb ▸ ha))

lemma mem_addIfKind (a k v : String) (x : Elem) :
    a ∈ (addIfKind k v x).classes ↔ a ∈ x.classes ∨ (a = v ∧ k ∈ x.classes) := by
  unfold addIfKind
  split_ifs with h <;> simp [mem_addClass, h]

lemma mem_addIfKind_of_mem {a : String} (k v : String) {x : Elem}
    (h : a ∈ x.classes) : a ∈ (addIfKind k v x).classes := by
  unfold addIfKind
  split_ifs
  · exact mem_addClass_of_mem _ h
  · exact h

lemma addIfKind_of_imp {k v : String} {x : Elem}
    (h : k ∈ x.classes → v ∈ x.classes) : addIfKind k v x = x := by
  unfold addIfKind
  split_ifs with hk
  · exact addClass_of_mem (h hk)
  · rfl

lemma addIfKind_nodup {k v : String} {x : Elem} (h : x.classes.Nodup) :
    (addIfKind k v x).classes.Nodup := by
  unfold addIfKind
  split_ifs
  · exact addClass_nodup h
  · exact h

lemma mem_reveal_of_mem {a : String} {e : Elem} (h : a ∈ e.classes) :
    a ∈ (reveal e).classes :=
  mem_addIfKind_of_mem _ _ (mem_addIfKind_of_mem _ _
    (mem_addIfKind_of_mem _ _ (mem_addClass_of_mem _ h)))

lemma reveal_nodup {e : Elem} (h : e.classes.Nodup) :
    (reveal e).classes.Nodup :=
  addIfKind_nodup (addIfKind_nodup (addIfKind_nodup (addClass_nodup h)))

lemma mem_addClass_iff_ne {a c : String} (hne : a ≠ c) (e : Elem) :
    a ∈ (addClass c e).classes ↔ a ∈ e.classes := by
  unfold addClass
  split_ifs with hc
  · exact Iff.rfl
  · simp [hne]

lemma mem_addIfKind_iff_ne {a v : String} (k : String) (hne : a ≠ v) (x : Elem) :
    a ∈ (addIfKind k v x).classes ↔ a ∈ x.classes := by
  unfold addIfKind
  split_ifs with hk
  · exact mem_addClass_iff_ne hne x
  · exact Iff.rfl

lemma mem_addIfKind_self {k : String} (v : String) {x : Elem}
    (hk : k ∈ x.classes) : v ∈ (addIfKind k v x).classes := by
  unfold addIfKind
  rw [if_pos hk]
  exact mem_addClass_self _ _

/-- The three kind guards of `reveal` test pre-existing classes only: none
of the marker classes it adds is itself a guard. -/
lemma reveal_guard_iff {g : String}
    (h1 : g ≠ "fade-in-up--visible") (h2 : g ≠ "timeline__item--visible")
    (h3 : g ≠ "story-card--visible") (h4 : g ≠ "prediction-card--visible")
    (e : Elem) : g ∈ (reveal e).classes ↔ g ∈ e.classes := by
  rw [reveal, mem_addIfKind_iff_ne _ h4, mem_addIfKind_iff_ne _ h3,
    mem_addIfKind_iff_ne _ h2, mem_addClass_iff_ne h1]

lemma reveal_idem (e : Elem) : reveal (reveal e) = reveal e := by
  have hf : "fade-in-up--visible" ∈ (reveal e).classes :=
    mem_addIfKind_of_mem _ _ (mem_addIfKind_of_mem _ _
      (mem_addIfKind_of_mem _ _ (mem_addClass_self _ _)))
  have htl : "timeline__item" ∈ (reveal e).classes →
      "timeline__item--visible" ∈ (reveal e).classes := by
    intro h
    have he : "timeline__item" ∈ e.classes :=
      (reveal_guard_iff (by decide) (by decide) (by decide) (by decide) e).mp h
    exact mem_addIfKind_of_mem _ _ (mem_addIfKind_of_mem _ _
      (mem_addIfKind_self _ (mem_addClass_of_mem _ he)))
  have hsc : "story-card" ∈ (reveal e).classes →
      "story-card--visible" ∈ (reveal e).classes := by
    intro h
    have he : "story-card" ∈ e.classes :=
      (reveal_guard_iff (by decide) (by decide) (by decide) (by decide) e).mp h
    exact mem_addIfKind_of_mem _ _ (mem_addIfKind_self _
      (mem_addIfKind_of_mem _ _ (mem_addClass_of_mem _ he)))
  have hpc : "prediction-card" ∈ (reveal e).classes →
      "prediction-card--visible" ∈ (reveal e).classes := by
    intro h
    have he : "prediction-card" ∈ e.classes :=
      (reveal_guard_iff (by decide) (by decide) (by decide) (by decide) e).mp h
    exact mem_addIfKind_self _ (mem_addIfKind_of_mem _ _
      (mem_addIfKind_of_mem _ _ (mem_addClass_of_mem _ he)))
  show addIfKind "prediction-card" "prediction-card--visible"
    (addIfKind "story-card" "story-card--visible"
      (addIfKind "timeline__item" "timeline__item--visible"
        (addClass "fade-in-up--visible" (reveal e)))) = reveal e
  rw [addClass_of_mem hf, addIfKind_of_imp htl, addIfKind_of_imp hsc,
    addIfKind_of_imp hpc]

/-! ## Reveal-watcher lemmas -/

lemma handleAnimationIntersection_observed (es : List REntry) :
    ∀ sys : RevealSys,
      (handleAnimationIntersection sys es).observed = sys.observed := by
  induction es with
  | nil => intro sys; rfl
  | cons e rest ih =>
    intro sys
    have hstep : handleAnimationIntersection sys (e :: rest)
        = handleAnimationIntersection
            (if e.isIntersecting then
              { sys with store := fun j =>
                  if j = e.target then reveal (sys.store j) else sys.store j }
            else sys) rest := rfl
    rw [hstep, ih]
    by_cases hb : e.isIntersecting <;> simp [hb]

lemma handleAnimationIntersection_mono (es : List REntry) :
    ∀ (sys : RevealSys) (j : ℕ) (a : String),
      a ∈ (sys.store j).classes →
      a ∈ ((handleAnimationIntersection sys es).store j).classes := by
  induction es with
  | nil => intro sys j a h; exact h
  | cons e rest ih =>
    intro sys j a h
    have hstep : handleAnimationIntersection sys (e :: rest)
        = handleAnimationIntersection
            (if e.isIntersecting then
              { sys with store := fun j =>
                  if j = e.target then reveal (sys.store j) else sys.store j }
            else sys) rest := rfl
    rw [hstep]
    apply ih
    by_cases hb : e.isIntersecting
    · simp only [hb, if_true]
      by_cases hj : j = e.target
      · subst hj
        simp only [if_pos rfl]
        exact mem_reveal_of_mem h
      · simp only [if_neg hj]
        exact h
    · simp only [hb, if_false]
      exact h

lemma runRevealBatches_observed (bs : List (List REntry)) :
    ∀ sys : RevealSys, (runRevealBatches sys bs).observed = sys.observed := by
  induction bs with
  | nil => intro sys; rfl
  | cons b rest ih =>
    intro sys
    have hstep : runRevealBatches sys (b :: rest)
        = runRevealBatches (handleAnimationIntersection sys b) rest := rfl
    rw [hstep, ih, handleAnimationIntersection_observed]

lemma runRevealBatches_mono (bs : List (List REntry)) :
    ∀ (sys : RevealSys) (j : ℕ) (a : String),
      a ∈ (sys.store j).classes →
      a ∈ ((runRevealBatches sys bs).store j).classes := by
  induction bs with
  | nil => intro sys j a h; exact h
  | cons b rest ih =>
    intro sys j a h
    exact ih _ _ _ (handleAnimationIntersection_mono b sys j a h)

/-! ## Section-watcher lemmas -/

lemma sectionFold_spec (es : List SectionEntry) :
    ∀ (st : AppState) (acc : List String),
      (es.foldl sectionStep (st, acc)).2
          = acc ++ (es.filter (fun e => e.isIntersecting)).map (fun e => e.id)
      ∧ (es.foldl sectionStep (st, acc)).1.currentSection
          = ((es.filter (fun e => e.isIntersecting)).map (fun e => e.id)).getLastD
              st.currentSection := by
  induction es with
  | nil => intro st acc; simp
  | cons e rest ih =>
    intro st acc
    by_cases hb : e.isIntersecting
    · have hstep : sectionStep (st, acc) e
          = ({ st with currentSection := e.id }, acc ++ [e.id]) := by
        simp [sectionStep, hb]
      rw [List.foldl_cons, hstep, List.filter_cons_of_pos hb, List.map_cons]
      obtain ⟨ih1, ih2⟩ := ih { st with currentSection := e.id } (acc ++ [e.id])
      refine ⟨?_, ?_⟩
      · rw [ih1, List.append_assoc, List.singleton_append]
      · rw [ih2, List.getLastD_cons]
    · have hstep : sectionStep (st, acc) e = (st, acc) := by
        simp [sectionStep, hb]
      rw [List.foldl_cons, hstep, List.filter_cons_of_neg hb]
      exact ih st acc

/-! ## Claim C9 -/

/-- C9: the reveal trigger is idempotent — applying the reveal transition
to an already-revealed element leaves its class set unchanged, and it
never introduces duplicate class entries (a duplicate-free class list
stays duplicate-free). -/
theorem reveal_trigger_idempotent (e : Elem) :
    reveal (reveal e) = reveal e
    ∧ (e.classes.Nodup → (reveal e).classes.Nodup) :=
  ⟨reveal_idem e, fun h => reveal_nodup h⟩

/-- Witness for C9 at a concrete story-card element. -/
theorem reveal_trigger_idempotent_witness :
    reveal (reveal ⟨["story-card"]⟩) = reveal ⟨["story-card"]⟩
    ∧ (reveal ⟨["story-card"]⟩).classes.Nodup :=
  ⟨(reveal_trigger_idempotent ⟨["story-card"]⟩).1,
   (reveal_trigger_idempotent ⟨["story-card"]⟩).2 (by decide)⟩

/-! ## Claim C3 -/

/-- C3 counterexample: after the reveal watcher's callback has revealed a
concrete observed element, the element is still in the observed set — the
handler never unsubscribes it, contrary to the claim. -/
theorem reveal_watcher_keeps_subscription :
    "fade-in-up--visible" ∈
      ((handleAnimationIntersection ⟨fun _ => ⟨["story-card"]⟩, {0}⟩
          [⟨0, true⟩]).store 0).classes
    ∧ 0 ∈ (handleAnimationIntersection ⟨fun _ => ⟨["story-card"]⟩, {0}⟩
          [⟨0, true⟩]).observed := by
  constructor
  · show "fade-in-up--visible" ∈ (reveal ⟨["story-card"]⟩).classes
    decide
  · show 0 ∈ ({0} : Finset ℕ)
    decide

/-- C3 (amended): once revealed, an element is never re-hidden — the
reveal watcher only ever adds classes, so any class present is present
after any further batches — but the element is not unsubscribed: the
observed set is unchanged by every callback run. -/
theorem reveal_watcher_monotone_still_subscribed (sys : RevealSys)
    (bs : List (List REntry)) :
    (runRevealBatches sys bs).observed = sys.observed
    ∧ ∀ (j : ℕ) (a : String), a ∈ (sys.store j).classes →
        a ∈ ((runRevealBatches sys bs).store j).classes :=
  ⟨runRevealBatches_observed bs sys, fun j a h => runRevealBatches_mono bs sys j a h⟩

/-! ## Claim C10 -/

/-- C10: `setState` changes exactly the state fields whose keys appear in
`newState` (to the given values) and leaves every other field unchanged. -/
theorem setState_frame (st : AppState) (u : StateUpdate) :
    ((u.currentSection = none → (setState st u).currentSection = st.currentSection)
      ∧ ∀ v, u.currentSection = some v → (setState st u).currentSection = v)
    ∧ ((u.genderVersion = none → (setState st u).genderVersion = st.genderVersion)
      ∧ ∀ v, u.genderVersion = some v → (setState st u).genderVersion = v)
    ∧ ((u.animationPlaying = none → (setState st u).animationPlaying = st.animationPlaying)
      ∧ ∀ v, u.animationPlaying = some v → (setState st u).animationPlaying = v)
    ∧ ((u.scrollPosition = none → (setState st u).scrollPosition = st.scrollPosition)
      ∧ ∀ v, u.scrollPosition = some v → (setState st u).scrollPosition = v)
    ∧ ((u.isMenuOpen = none → (setState st u).isMenuOpen = st.isMenuOpen)
      ∧ ∀ v, u.isMenuOpen = some v → (setState st u).isMenuOpen = v) := by
  refine ⟨⟨fun h => ?_, fun v h => ?_⟩, ⟨fun h => ?_, fun v h => ?_⟩,
    ⟨fun h => ?_, fun v h => ?_⟩, ⟨fun h => ?_, fun v h => ?_⟩,
    ⟨fun h => ?_, fun v h => ?_⟩⟩ <;> simp [setState, h]

/-- Witness for C10: updating only `currentSection` sets it and leaves
`isMenuOpen` at its old value. -/
theorem setState_frame_witness :
    (setState appInit { currentSection := some "about" }).currentSection = "about"
    ∧ (setState appInit { currentSection := some "about" }).isMenuOpen
        = appInit.isMenuOpen :=
  ⟨(setState_frame appInit { currentSection := some "about" }).1.2 "about" rfl,
   (setState_frame appInit { currentSection := some "about" }).2.2.2.2.1 rfl⟩

/-! ## Claim C8 -/

/-- C8: when a section-watcher batch contains intersecting entries, after
the batch the current section equals the id of the last intersecting entry
in reported batch order, and the navigation collaborator was notified for
each intersecting entry in that order. -/
theorem section_last_entry_wins (es : List SectionEntry) (st : AppState)
    (hne : es.filter (fun e => e.isIntersecting) ≠ []) :
    (handleSectionIntersection es st).1.currentSection
      = ((es.filter (fun e => e.isIntersecting)).map (fun e => e.id)).getLastD
          st.currentSection
    ∧ (handleSectionIntersection es st).2
      = (es.filter (fun e => e.isIntersecting)).map (fun e => e.id) := by
  obtain ⟨h2, h1⟩ := sectionFold_spec es st []
  exact ⟨h1, by rw [handleSectionIntersection, h2, List.nil_append]⟩

/-- Witness for C8: sections a and b both intersecting in that reported
order — b, the last of the batch, wins. -/
theorem section_last_entry_wins_witness :
    (handleSectionIntersection [⟨"a", true⟩, ⟨"b", true⟩] appInit).1.currentSection = "b"
    ∧ (handleSectionIntersection [⟨"a", true⟩, ⟨"b", true⟩] appInit).2 = ["a", "b"] := by
  obtain ⟨h1, h2⟩ := section_last_entry_wins [⟨"a", true⟩, ⟨"b", true⟩] appInit (by decide)
  refine ⟨?_, ?_⟩
  · rw [h1]; rfl
  · rw [h2]; rfl

/-! ## Claim C6 -/

/-- C6: a tick advances a particle's position by its velocity; a particle
whose new position crosses either axis bound has exactly the corresponding
velocity component sign-flipped by that tick and not otherwise; the
particle sits outside the bounds for that one frame, and the following
tick brings the crossed coordinate back inside (to its pre-crossing
value). -/
theorem particle_update_reflection (w h : ℚ) (p : Particle)
    (hx0 : 0 ≤ p.x) (hxw : p.x ≤ w) (hy0 : 0 ≤ p.y) (hyh : p.y ≤ h) :
    ((Particle.update w h p).x = p.x + p.vx
      ∧ (Particle.update w h p).y = p.y + p.vy)
    ∧ ((p.x + p.vx < 0 ∨ p.x + p.vx > w) → (Particle.update w h p).vx = -p.vx)
    ∧ (¬(p.x + p.vx < 0 ∨ p.x + p.vx > w) → (Particle.update w h p).vx = p.vx)
    ∧ ((p.y + p.vy < 0 ∨ p.y + p.vy > h) → (Particle.update w h p).vy = -p.vy)
    ∧ (¬(p.y + p.vy < 0 ∨ p.y + p.vy > h) → (Particle.update w h p).vy = p.vy)
    ∧ ((p.x + p.vx < 0 ∨ p.x + p.vx > w) →
        ((Particle.update w h p).x < 0 ∨ (Particle.update w h p).x > w)
        ∧ (Particle.update w h (Particle.update w h p)).x = p.x
        ∧ 0 ≤ (Particle.update w h (Particle.update w h p)).x
        ∧ (Particle.update w h (Particle.update w h p)).x ≤ w)
    ∧ ((p.y + p.vy < 0 ∨ p.y + p.vy > h) →
        ((Particle.update w h p).y < 0 ∨ (Particle.update w h p).y > h)
        ∧ (Particle.update w h (Particle.update w h p)).y = p.y
        ∧ 0 ≤ (Particle.update w h (Particle.update w h p)).y
        ∧ (Particle.update w h (Particle.update w h p)).y ≤ h) := by
  have hx : (Particle.update w h p).x = p.x + p.vx := rfl
  have hy : (Particle.update w h p).y = p.y + p.vy := rfl
  refine ⟨⟨hx, hy⟩, fun hc => ?_, fun hc => ?_, fun hc => ?_, fun hc => ?_,
    fun hc => ?_, fun hc => ?_⟩
  · show (if p.x + p.vx < 0 ∨ p.x + p.vx > w then -p.vx else p.vx) = -p.vx
    rw [if_pos hc]
  · show (if p.x + p.vx < 0 ∨ p.x + p.vx > w then -p.vx else p.vx) = p.vx
    rw [if_neg hc]
  · show (if p.y + p.vy < 0 ∨ p.y + p.vy > h then -p.vy else p.vy) = -p.vy
    rw [if_pos hc]
  · show (if p.y + p.vy < 0 ∨ p.y + p.vy > h then -p.vy else p.vy) = p.vy
    rw [if_neg hc]
  · have hvx : (Particle.update w h p).vx = -p.vx := by
      show (if p.x + p.vx < 0 ∨ p.x + p.vx > w then -p.vx else p.vx) = -p.vx
      rw [if_pos hc]
    have hxx : (Particle.update w h (Particle.update w h p)).x
        = (Particle.update w h p).x + (Particle.update w h p).vx := rfl
    have hback : (Particle.update w h (Particle.update w h p)).x = p.x := by
      rw [hxx, hx, hvx]; ring
    exact ⟨by rw [hx]; exact hc, hback, by rw [hback]; exact hx0, by rw [hback]; exact hxw⟩
  · have hvy : (Particle.update w h p).vy = -p.vy := by
      show (if p.y + p.vy < 0 ∨ p.y + p.vy > h then -p.vy else p.vy) = -p.vy
      rw [if_pos hc]
    have hyy : (Particle.update w h (Particle.update w h p)).y
        = (Particle.update w h p).y + (Particle.update w h p).vy := rfl
    have hback : (Particle.update w h (Particle.update w h p)).y = p.y := by
      rw [hyy, hy, hvy]; ring
    exact ⟨by rw [hy]; exact hc, hback, by rw [hback]; exact hy0, by rw [hback]; exact hyh⟩

/-- Witness for C6: a particle at x = 99 moving right by 2 on a width-100
surface crosses the wall, is reflected, and returns to x = 99. -/
theorem particle_update_reflection_witness :
    (Particle.update 100 100 ⟨99, 5, 2, 0, 1, 1/2⟩).vx = -2
    ∧ (Particle.update 100 100 (Particle.update 100 100 ⟨99, 5, 2, 0, 1, 1/2⟩)).x = 99 := by
  have h := particle_update_reflection 100 100 ⟨99, 5, 2, 0, 1, 1/2⟩
    (by norm_num) (by norm_num) (by norm_num) (by norm_num)
  have hc : ((⟨99, 5, 2, 0, 1, 1/2⟩ : Particle).x + (⟨99, 5, 2, 0, 1, 1/2⟩ : Particle).vx < 0
      ∨ (⟨99, 5, 2, 0, 1, 1/2⟩ : Particle).x + (⟨99, 5, 2, 0, 1, 1/2⟩ : Particle).vx > 100) := by
    norm_num
  refine ⟨?_, (h.2.2.2.2.2.1 hc).2.1⟩
  have := h.2.1 hc
  rw [this]

/-! ## Claim C2 -/

/-- C2 counterexample: `handleScroll` with the header element absent is
not a guarded no-op — it throws a `TypeError` (modelled as an `error`
result), contrary to the claim that every entry point no-ops. -/
theorem handleScroll_missing_header_throws :
    handleScroll 150 none none appInit
      = Except.error "TypeError: null has no classList" := rfl

/-- C2 (amended): particle initialization and form initialization are
guarded no-ops when their DOM target is absent, but scroll handling is
not guarded: with the header absent, `handleScroll` always throws a
`TypeError` (and has already stored the scroll position in state when it
does). -/
theorem missing_target_entry_points :
    (∀ (rs : ℕ → ℚ) (s : PSys), initializeParticles none rs s = s)
    ∧ (∀ m : FormState, formInit none m = m)
    ∧ (∀ (scrollY : ℚ) (hero : Option ℚ) (st : AppState),
        handleScroll scrollY none hero st
          = Except.error "TypeError: null has no classList") :=
  ⟨fun _ _ => rfl, fun _ => rfl, fun _ _ _ => rfl⟩

/-! ## Claim C1 -/

/-- C1: the pause/resume contract fails on the code.  Trace: initialize
the particle loop (the first frame id 1 is scheduled and stored in
`particleAnimationId`); that frame fires (frame id 2 is now pending while
`particleAnimationId` still holds the stale id 1); `pauseAnimations` then
cancels id 1, leaving frame 2 pending, so the loop keeps running — and
`resumeAnimations` is an exact no-op because `particleAnimationId` was
never cleared, so particles are never re-initialized. -/
theorem pause_resume_stale_handle :
    (pauseAnimations (fireFrame (initializeParticles (some ⟨300, 200⟩)
        (fun _ => 1/2) psInit))).pending = [2]
    ∧ (fireFrame (pauseAnimations (fireFrame (initializeParticles (some ⟨300, 200⟩)
        (fun _ => 1/2) psInit)))).framesRun = 3
    ∧ resumeAnimations (some ⟨300, 200⟩) (fun _ => 1/2)
        (pauseAnimations (fireFrame (initializeParticles (some ⟨300, 200⟩)
          (fun _ => 1/2) psInit)))
      = pauseAnimations (fireFrame (initializeParticles (some ⟨300, 200⟩)
          (fun _ => 1/2) psInit))
    ∧ (resumeAnimations (some ⟨300, 200⟩) (fun _ => 1/2)
        (pauseAnimations (fireFrame (initializeParticles (some ⟨300, 200⟩)
          (fun _ => 1/2) psInit)))).initCount = 1 :=
  ⟨rfl, rfl, rfl, rfl⟩

/-! ## Stat-observer lemmas -/

/-- Bound for the at-most-once argument: starts recorded for `t` plus one
pending chance while `t` is still observed. -/
def statM (s : StatSys) (t : ℕ) : ℕ :=
  s.starts.count t + (if t ∈ s.observed then 1 else 0)

lemma statM_batch (es : List SEntry) :
    ∀ (s : StatSys) (t : ℕ),
      (∀ e ∈ es, e.target ∈ s.observed) →
      (es.map (fun e => e.target)).Nodup →
      statM (statObserverBatch s es) t ≤ statM s t := by
  induction es with
  | nil => intro s t _ _; exact le_rfl
  | cons e rest ih =>
    intro s t hdel hnodup
    have hcons : (∀ x ∈ rest, ¬x.target = e.target)
        ∧ (rest.map (fun e => e.target)).Nodup := by simpa using hnodup
    have hfold : statObserverBatch s (e :: rest)
        = statObserverBatch (statObserverStep s e) rest := rfl
    rw [hfold]
    by_cases hb : e.isIntersecting
    · have hstep : statObserverStep s e
          = ⟨s.observed.erase e.target, s.starts ++ [e.target]⟩ := by
        simp [statObserverStep, hb]
      have hmem : e.target ∈ s.observed := hdel e (List.mem_cons_self e rest)
      have hdel' : ∀ e' ∈ rest, e'.target ∈ (statObserverStep s e).observed := by
        intro e' he'
        rw [hstep]
        exact Finset.mem_erase.mpr ⟨hcons.1 e' he', hdel e' (List.mem_cons_of_mem _ he')⟩
      have hM : statM (statObserverStep s e) t ≤ statM s t := by
        rw [hstep]
        by_cases ht : t = e.target
        · subst ht
          have h1 : (s.starts ++ [e.target]).count e.target
              = s.starts.count e.target + 1 := by
            simp [List.count_append]
          have h2 : e.target ∉ s.observed.erase e.target :=
            Finset.not_mem_erase _ _
          simp [statM, h1, h2, hmem]
        · have h1 : (s.starts ++ [e.target]).count t = s.starts.count t := by
            simp [List.count_append, List.count_cons, ht]
          have h2 : (t ∈ s.observed.erase e.target) ↔ t ∈ s.observed := by
            rw [Finset.mem_erase]
            simp [ht]
          simp [statM, h1, h2]
      exact le_trans (ih _ t hdel' hcons.2) hM
    · have hstep : statObserverStep s e = s := by
        simp [statObserverStep, hb]
      rw [hstep]
      exact ih s t (fun e' he' => hdel e' (List.mem_cons_of_mem _ he')) hcons.2

lemma statM_run (bs : List (List SEntry)) :
    ∀ (s : StatSys) (t : ℕ), statRunDelivered s bs →
      (∀ es ∈ bs, (es.map (fun e => e.target)).Nodup) →
      statM (statObserverRun s bs) t ≤ statM s t := by
  induction bs with
  | nil => intro s t _ _; exact le_rfl
  | cons b rest ih =>
    intro s t hdel hnodup
    have hd : (∀ e ∈ b, e.target ∈ s.observed)
        ∧ statRunDelivered (statObserverBatch s b) rest := hdel
    have hfold : statObserverRun s (b :: rest)
        = statObserverRun (statObserverBatch s b) rest := rfl
    rw [hfold]
    refine le_trans
      (ih _ t hd.2 (fun es hes => hnodup es (List.mem_cons_of_mem _ hes))) ?_
    exact statM_batch b s t hd.1 (hnodup b (List.mem_cons_self _ _))

/-! ## Claim C4 -/

/-- C4 (amended): at every animation step of the stat counter the
displayed value is `floor(T * (1 - (1 - p)^4))` with
`p = clamp(elapsed/2000, 0, 1)`; once `p` reaches 1 the displayed value
is forced to exactly `T`; and the one-shot visibility subscription starts
the animation at most once per element over any run of delivered batches
in which no single batch carries two records for the same target — the
callback tests only `isIntersecting`, so a batch with duplicate
intersecting records for one element starts its animation once per
record (see `statCounter_double_start`). -/
theorem statCounter_spec (T : ℤ) (e : ℚ) (hT : 0 ≤ T) (he : 0 ≤ e)
    (bs : List (List SEntry)) (obs : Finset ℕ) (t : ℕ)
    (hdel : statRunDelivered ⟨obs, []⟩ bs)
    (hnodup : ∀ es ∈ bs, (es.map (fun e => e.target)).Nodup) :
    statStep T e = ⌊(T : ℚ) * (1 - (1 - max 0 (min (e / 2000) 1))^4)⌋
    ∧ (2000 ≤ e → statStep T e = T)
    ∧ (statObserverRun ⟨obs, []⟩ bs).starts.count t ≤ 1 := by
  have hdiv : (0:ℚ) ≤ e / 2000 := by positivity
  have hp0 : (0:ℚ) ≤ min (e / 2000) 1 := le_min hdiv zero_le_one
  have hmax : max 0 (min (e / 2000) 1) = min (e / 2000) 1 := max_eq_right hp0
  refine ⟨?_, fun h2000 => ?_, ?_⟩
  · rw [hmax]
    show (if min (e / statDuration) 1 < 1 then
        ⌊(T : ℚ) * (1 - (1 - min (e / statDuration) 1)^4)⌋ else T)
      = ⌊(T : ℚ) * (1 - (1 - min (e / 2000) 1)^4)⌋
    rw [show statDuration = 2000 from rfl]
    by_cases hlt : min (e / 2000) 1 < (1:ℚ)
    · rw [if_pos hlt]
    · rw [if_neg hlt]
      have hp1 : min (e / 2000) 1 = (1:ℚ) :=
        le_antisymm (min_le_right _ _) (not_lt.mp hlt)
      rw [hp1]
      norm_num
  · have hone : (1:ℚ) ≤ e / 2000 := by
      rw [le_div_iff₀ (by norm_num : (0:ℚ) < 2000)]
      linarith
    have hp1 : min (e / 2000) 1 = (1:ℚ) := min_eq_right hone
    show (if min (e / statDuration) 1 < 1 then
        ⌊(T : ℚ) * (1 - (1 - min (e / statDuration) 1)^4)⌋ else T) = T
    rw [show statDuration = 2000 from rfl, hp1]
    norm_num
  · have hrun := statM_run bs ⟨obs, []⟩ t hdel hnodup
    have hini : statM ⟨obs, []⟩ t ≤ 1 := by
      unfold statM
      simp only [List.count_nil, Nat.zero_add]
      split_ifs <;> omega
    have hcount : (statObserverRun ⟨obs, []⟩ bs).starts.count t
        ≤ statM (statObserverRun ⟨obs, []⟩ bs) t := Nat.le_add_right _ _
    omega

/-- Witness for C4 at target 100, elapsed 500, and a run of two delivered
batches each carrying one record for the observed element. -/
theorem statCounter_spec_witness :
    statStep 100 500 = ⌊(100 : ℚ) * (1 - (1 - max 0 (min ((500:ℚ) / 2000) 1))^4)⌋
    ∧ ((2000:ℚ) ≤ 500 → statStep 100 500 = 100)
    ∧ (statObserverRun ⟨{0}, []⟩ [[⟨0, true⟩]]).starts.count 0 ≤ 1 :=
  statCounter_spec 100 500 (by norm_num) (by norm_num) [[⟨0, true⟩]] {0} 0
    ⟨by decide, trivial⟩ (by decide)

/-- C4 counterexample: a single delivered batch may carry two intersecting
records for the same observed element (`unobserve` during the callback
cannot retract records already in the delivered array); the callback of
main.js 393-398 tests only `isIntersecting`, so it starts the animation
twice for that element — refuting the unqualified at-most-once claim. -/
theorem statCounter_double_start :
    statRunDelivered ⟨({0} : Finset ℕ), []⟩ [[⟨0, true⟩, ⟨0, true⟩]]
    ∧ (statObserverRun ⟨({0} : Finset ℕ), []⟩
        [[⟨0, true⟩, ⟨0, true⟩]]).starts.count 0 = 2 :=
  ⟨⟨by decide, trivial⟩, by decide⟩

/-! ## Claim C7 -/

/-- C7: initialization allocates exactly `count` particles; particle `k` is
the fixed affine image of the six fresh uniform draws `rs (6k) .. rs (6k+5)`,
so every particle's position lies within the surface bounds, velocity
components in `[-0.25, 0.25]`, radius in `[1, 3]` and opacity in
`[0.2, 0.7]`. -/
theorem initializeParticles_ranges (w h : ℚ) (count : ℕ) (rs : ℕ → ℚ)
    (hw : 0 ≤ w) (hh : 0 ≤ h) (hr : ∀ n, 0 ≤ rs n ∧ rs n < 1) :
    (initParticlesList w h count rs).length = count
    ∧ (∀ k, k < count →
        (initParticlesList w h count rs)[k]? = some (Particle.mk' w h rs k))
    ∧ ∀ p ∈ initParticlesList w h count rs,
        (0 ≤ p.x ∧ p.x ≤ w) ∧ (0 ≤ p.y ∧ p.y ≤ h)
        ∧ (-(1/4) ≤ p.vx ∧ p.vx ≤ 1/4) ∧ (-(1/4) ≤ p.vy ∧ p.vy ≤ 1/4)
        ∧ (1 ≤ p.size ∧ p.size ≤ 3)
        ∧ (1/5 ≤ p.opacity ∧ p.opacity ≤ 7/10) := by
  refine ⟨by simp [initParticlesList], fun k hk => ?_, fun p hp => ?_⟩
  · simp [initParticlesList, List.getElem?_range hk]
  · obtain ⟨k, _, rfl⟩ := List.mem_map.mp hp
    obtain ⟨h0x, h1x⟩ := hr (6 * k)
    obtain ⟨h0y, h1y⟩ := hr (6 * k + 1)
    obtain ⟨h0vx, h1vx⟩ := hr (6 * k + 2)
    obtain ⟨h0vy, h1vy⟩ := hr (6 * k + 3)
    obtain ⟨h0s, h1s⟩ := hr (6 * k + 4)
    obtain ⟨h0o, h1o⟩ := hr (6 * k + 5)
    refine ⟨⟨mul_nonneg h0x hw, mul_le_of_le_one_left hw h1x.le⟩,
      ⟨mul_nonneg h0y hh, mul_le_of_le_one_left hh h1y.le⟩,
      ⟨?_, ?_⟩, ⟨?_, ?_⟩, ⟨?_, ?_⟩, ⟨?_, ?_⟩⟩
    · show -(1/4 : ℚ) ≤ (rs (6 * k + 2) - 1/2) * (1/2)
      linarith
    · show (rs (6 * k + 2) - 1/2) * (1/2) ≤ (1/4 : ℚ)
      linarith
    · show -(1/4 : ℚ) ≤ (rs (6 * k + 3) - 1/2) * (1/2)
      linarith
    · show (rs (6 * k + 3) - 1/2) * (1/2) ≤ (1/4 : ℚ)
      linarith
    · show (1 : ℚ) ≤ rs (6 * k + 4) * 2 + 1
      linarith
    · show rs (6 * k + 4) * 2 + 1 ≤ (3 : ℚ)
      linarith
    · show (1/5 : ℚ) ≤ rs (6 * k + 5) * (1/2) + 1/5
      linarith
    · show rs (6 * k + 5) * (1/2) + 1/5 ≤ (7/10 : ℚ)
      linarith

/-- Witness for C7 on a 100 by 80 surface with two particles drawn from
the constant stream 1/2. -/
theorem initializeParticles_ranges_witness :
    (initParticlesList 100 80 2 (fun _ => 1/2)).length = 2 :=
  (initializeParticles_ranges 100 80 2 (fun _ => 1/2) (by norm_num) (by norm_num)
    (fun _ => ⟨by norm_num, by norm_num⟩)).1

/-! ## Render-pass lemmas -/

lemma isLine_lineBetween (p q : Particle) : (lineBetween p q).isLine = true := rfl

lemma isCircle_drawCircleCall (p : Particle) :
    (drawCircleCall p).isCircle = true := rfl

lemma isCircle_eq_false_of_isLine {c : DrawCall} (h : c.isLine = true) :
    c.isCircle = false := by
  cases c
  · simp [DrawCall.isLine] at h
  · rfl

lemma mem_linesFrom (p : Particle) (qs : List Particle) (c : DrawCall) :
    c ∈ linesFrom p qs
      ↔ ∃ q ∈ qs, particleDist p q < (maxDistance : ℝ) ∧ c = lineBetween p q := by
  unfold linesFrom
  rw [List.mem_filterMap]
  constructor
  · rintro ⟨q, hq, hsome⟩
    by_cases hd : particleDist p q < (maxDistance : ℝ)
    · rw [if_pos hd] at hsome
      exact ⟨q, hq, hd, (Option.some_inj.mp hsome).symm⟩
    · rw [if_neg hd] at hsome
      simp at hsome
  · rintro ⟨q, hq, hd, rfl⟩
    exact ⟨q, hq, by rw [if_pos hd]⟩

lemma drawConnections_cons (p : Particle) (rest : List Particle) :
    drawConnections (p :: rest) = linesFrom p rest ++ drawConnections rest := rfl

lemma isLine_of_mem_drawConnections (ps : List Particle) :
    ∀ c ∈ drawConnections ps, c.isLine = true := by
  induction ps with
  | nil => intro c hc; simp [drawConnections] at hc
  | cons p rest ih =>
    intro c hc
    rw [drawConnections_cons] at hc
    rcases List.mem_append.mp hc with hm | hm
    · obtain ⟨q, _, _, rfl⟩ := (mem_linesFrom p rest c).mp hm
      rfl
    · exact ih c hm

lemma mem_drawConnections (ps : List Particle) (c : DrawCall) :
    c ∈ drawConnections ps
      ↔ ∃ p q, [p, q].Sublist ps ∧ particleDist p q < (maxDistance : ℝ)
          ∧ c = lineBetween p q := by
  induction ps with
  | nil =>
    simp only [drawConnections, List.not_mem_nil, false_iff]
    rintro ⟨p, q, hsub, -, -⟩
    simpa using List.sublist_nil.mp hsub
  | cons a rest ih =>
    rw [drawConnections_cons, List.mem_append, mem_linesFrom, ih]
    constructor
    · rintro (⟨q, hq, hd, rfl⟩ | ⟨p, q, hsub, hd, rfl⟩)
      · exact ⟨a, q, List.cons_sublist_cons.mpr (List.singleton_sublist.mpr hq),
          hd, rfl⟩
      · exact ⟨p, q, hsub.cons a, hd, rfl⟩
    · rintro ⟨p, q, hsub, hd, rfl⟩
      rcases List.sublist_cons_iff.mp hsub with hm | ⟨r, heq, hr⟩
      · exact Or.inr ⟨p, q, hm, hd, rfl⟩
      · injection heq with h1 h2
        subst h1
        subst h2
        exact Or.inl ⟨q, List.singleton_sublist.mp hr, hd, rfl⟩

lemma drawConnections_length (ps : List Particle) :
    (drawConnections ps).length ≤ ps.length.choose 2 := by
  induction ps with
  | nil => simp [drawConnections]
  | cons p rest ih =>
    have h1 : (linesFrom p rest).length ≤ rest.length :=
      List.length_filterMap_le _ _
    calc (drawConnections (p :: rest)).length
        = (linesFrom p rest).length + (drawConnections rest).length := by
          rw [drawConnections_cons, List.length_append]
      _ ≤ rest.length + rest.length.choose 2 := Nat.add_le_add h1 ih
      _ = (rest.length + 1).choose 2 := by
          rw [Nat.choose_succ_succ, Nat.choose_one_right]
      _ = (p :: rest).length.choose 2 := by simp

lemma filter_isCircle_animate (ps' : List Particle) :
    (ps'.map drawCircleCall ++ drawConnections ps').filter
        (fun c => c.isCircle) = ps'.map drawCircleCall := by
  rw [List.filter_append]
  have h1 : (ps'.map drawCircleCall).filter (fun c => c.isCircle)
      = ps'.map drawCircleCall := by
    rw [List.filter_eq_self]
    intro c hc
    obtain ⟨p, -, rfl⟩ := List.mem_map.mp hc
    rfl
  have h2 : (drawConnections ps').filter (fun c => c.isCircle) = [] := by
    rw [List.filter_eq_nil_iff]
    intro c hc
    simp [isCircle_eq_false_of_isLine (isLine_of_mem_drawConnections ps' c hc)]
  rw [h1, h2, List.append_nil]

lemma filter_isLine_animate (ps' : List Particle) :
    (ps'.map drawCircleCall ++ drawConnections ps').filter
        (fun c => c.isLine) = drawConnections ps' := by
  rw [List.filter_append]
  have h1 : (ps'.map drawCircleCall).filter (fun c => c.isLine) = [] := by
    rw [List.filter_eq_nil_iff]
    intro c hc
    obtain ⟨p, -, rfl⟩ := List.mem_map.mp hc
    simp [DrawCall.isLine, drawCircleCall]
  have h2 : (drawConnections ps').filter (fun c => c.isLine)
      = drawConnections ps' := by
    rw [List.filter_eq_self]
    intro c hc
    simp [isLine_of_mem_drawConnections ps' c hc]
  rw [h1, h2, List.nil_append]

/-! ## Claim C5 -/

/-- C5: one render pass draws exactly `n` filled circles — one per particle
at its current position, radius and opacity — and at most `n(n-1)/2`
connective lines: a line for exactly those position-ordered (unordered)
particle pairs at Euclidean distance below 100, each carrying the opacity
`(100 - distance) / 100 * 0.2` baked into `lineBetween`; and `n = 0`
produces zero draw calls (the connection pass divides only by the nonzero
constant `maxDistance`). -/
theorem animateFrame_render_spec (w h : ℚ) (ps : List Particle) :
    ((animateFrame w h ps).2.filter (fun c => c.isCircle)
        = (animateFrame w h ps).1.map drawCircleCall)
    ∧ ((animateFrame w h ps).2.filter (fun c => c.isCircle)).length = ps.length
    ∧ ((animateFrame w h ps).2.filter (fun c => c.isLine)).length
        ≤ ps.length * (ps.length - 1) / 2
    ∧ (∀ c : DrawCall, c.isLine = true →
        (c ∈ (animateFrame w h ps).2
          ↔ ∃ p q, [p, q].Sublist (animateFrame w h ps).1
              ∧ particleDist p q < (maxDistance : ℝ) ∧ c = lineBetween p q))
    ∧ (maxDistance : ℝ) ≠ 0
    ∧ (ps = [] → (animateFrame w h ps).2 = []) := by
  have hfst : (animateFrame w h ps).1 = ps.map (Particle.update w h) := rfl
  have hsnd : (animateFrame w h ps).2
      = (ps.map (Particle.update w h)).map drawCircleCall
        ++ drawConnections (ps.map (Particle.update w h)) := rfl
  refine ⟨?_, ?_, ?_, ?_, ?_, ?_⟩
  · rw [hsnd, hfst, filter_isCircle_animate]
  · rw [hsnd, filter_isCircle_animate, List.length_map, List.length_map]
  · rw [hsnd, filter_isLine_animate, ← Nat.choose_two_right]
    calc (drawConnections (ps.map (Particle.update w h))).length
        ≤ (ps.map (Particle.update w h)).length.choose 2 :=
          drawConnections_length _
      _ = ps.length.choose 2 := by rw [List.length_map]
  · intro c hline
    rw [hsnd, hfst, List.mem_append, mem_drawConnections]
    constructor
    · rintro (hm | hm)
      · obtain ⟨p, -, rfl⟩ := List.mem_map.mp hm
        simp [DrawCall.isLine, drawCircleCall] at hline
      · exact hm
    · exact Or.inr
  · norm_num [maxDistance]
  · rintro rfl
    rfl
